import Mathlib

/-!
Shallow embedding of the room-membership and signaling-relay coordinator of
`src/server/src/services/socketService.ts` (clipz-video-app).

Modelling conventions:

* A JS `Map` is an association list in insertion order: `set` updates an
  existing binding in place (keeping its position), otherwise appends;
  `delete` removes the binding; `get` returns the binding's value.
* A JS `Set` is a duplicate-free list in insertion order: `add` appends
  when absent, `delete` filters.
* Socket identifiers, room keys, user identifiers and signaling payloads
  are `String`s, as in the source.  Where the source tests a string for
  truthiness (`existingSocketId && …`, `if (userId)`), the model tests
  `≠ ""` explicitly, since the empty string is falsy in JavaScript.
* Outbound broadcasts (`socket.to(room).emit`, `io.to(room).emit`) are
  recorded as `Emit` values.  The recipient list is computed from the
  room's `socketIds`; the source keeps the socket.io adapter rooms in
  lock-step with `socketIds` through the accompanying `socket.join`,
  `socket.leave` and `oldSocket.leave` calls, so `socket.to(room)`
  reaches `socketIds` minus the sender and `io.to(room)` reaches
  `socketIds`.
* `console.log` calls and the transport-only `socket.join` /
  `socket.leave` / `oldSocket.leave` calls have no further effect on the
  modelled state.
-/

namespace SocketService

/-- JS `Map.get`: value of the first binding of the key, if any. -/
def mapGet {α : Type} : List (String × α) → String → Option α
  | [], _ => none
  | (k', v') :: rest, k => if k' = k then some v' else mapGet rest k

/-- JS `Map.set`: update an existing binding in place (keeping its
position in insertion order), otherwise append a new binding. -/
def mapSet {α : Type} : List (String × α) → String → α → List (String × α)
  | [], k, v => [(k, v)]
  | (k', v') :: rest, k, v =>
      if k' = k then (k, v) :: rest else (k', v') :: mapSet rest k v

/-- JS `Map.delete`. -/
def mapDelete {α : Type} (m : List (String × α)) (k : String) : List (String × α) :=
  m.filter (fun p => p.1 ≠ k)

/-- JS `Map.has`, and truthiness of an object-valued lookup such as
`rooms[roomId]` (an object is truthy, `undefined` is falsy). -/
def mapHas {α : Type} (m : List (String × α)) (k : String) : Bool :=
  (mapGet m k).isSome

/-- JS `Set.add`. -/
def setAdd (l : List String) (x : String) : List String :=
  if x ∈ l then l else l ++ [x]

/-- JS `Set.delete`. -/
def setDelete (l : List String) (x : String) : List String :=
  l.filter (fun y => y ≠ x)

/-- `RoomData` (socketService.ts lines 5-8): the per-room state, a set of
socket ids and a `userId → socketId` map. -/
structure RoomData where
  socketIds : List String
  userMap : List (String × String)
  deriving DecidableEq

def emptyRoom : RoomData := ⟨[], []⟩

/-- The module-level mutable state of socketService.ts: `rooms`
(line 11) and `socketRooms` (line 14). -/
structure ServerState where
  rooms : List (String × RoomData)
  socketRooms : List (String × List String)
  deriving DecidableEq

def initialState : ServerState := ⟨[], []⟩

/-- The room stored under a key, or a fresh empty room; lookups in the
source only dereference `rooms[roomId]` after ensuring it exists. -/
def getRoom (rooms : List (String × RoomData)) (roomId : String) : RoomData :=
  (mapGet rooms roomId).getD emptyRoom

/-- Reverse index lookup: the set of room keys a socket currently
occupies (empty when the socket is unknown). -/
def roomsOf (st : ServerState) (sid : String) : List String :=
  (mapGet st.socketRooms sid).getD []

/-- One outbound broadcast.  `recipients` is the list of socket ids the
transport delivers the event to. -/
inductive Emit where
  | userJoined (recipients : List String) (userId : String)
  | userLeft (recipients : List String) (userId : String)
  | roomUsers (recipients : List String) (users : List String)
  | signalMsg (recipients : List String) (senderUserId : String) (payload : String)
  deriving DecidableEq

def Emit.isRoomUsers : Emit → Bool
  | .roomUsers _ _ => true
  | _ => false

def Emit.isUserLeft : Emit → Bool
  | .userLeft _ _ => true
  | _ => false

def Emit.isUserJoined : Emit → Bool
  | .userJoined _ _ => true
  | _ => false

def countRoomUsers (es : List Emit) : Nat := (es.filter Emit.isRoomUsers).length

def countUserLeft (es : List Emit) : Nat := (es.filter Emit.isUserLeft).length

def countUserJoined (es : List Emit) : Nat := (es.filter Emit.isUserJoined).length

/-- `socketRooms.get(x)?.add(roomId)` (line 76): add a room key to a
socket's reverse-index entry when that entry exists. -/
def srAddRoom (sr : List (String × List String)) (sid roomId : String) :
    List (String × List String) :=
  match mapGet sr sid with
  | some rs => mapSet sr sid (setAdd rs roomId)
  | none => sr

/-- `socketRooms.get(x)?.delete(roomId)` (lines 55-58 and 164): remove a
room key from a socket's reverse-index entry when that entry exists. -/
def srDeleteRoom (sr : List (String × List String)) (sid roomId : String) :
    List (String × List String) :=
  match mapGet sr sid with
  | some rs => mapSet sr sid (setDelete rs roomId)
  | none => sr

/-- Lines 38-44: `if (!rooms[roomId]) rooms[roomId] = { … }`. -/
def ensureRoom (rooms : List (String × RoomData)) (roomId : String) :
    List (String × RoomData) :=
  if mapHas rooms roomId then rooms else mapSet rooms roomId emptyRoom

/-- Lines 46-67 of the `join-room` handler: the stale-user eviction.
`existingSocketId && existingSocketId !== socket.id` is string
truthiness (`""` is falsy) plus inequality; the inner guard is
`rooms[roomId].socketIds.has(existingSocketId)`.  The eviction removes
the stale socket from `socketIds` and drops the room from its
reverse-index entry; `oldSocket.leave(roomId)` is transport-only.
Note that the stale `userMap` binding itself is not removed here. -/
def evictStale (room : RoomData) (sr : List (String × List String))
    (roomId userId sid : String) : RoomData × List (String × List String) :=
  match mapGet room.userMap userId with
  | some e =>
      if e ≠ "" ∧ e ≠ sid ∧ e ∈ room.socketIds then
        ({ room with socketIds := setDelete room.socketIds e }, srDeleteRoom sr e roomId)
      else (room, sr)
  | none => (room, sr)

/-- The state of the target room and of the reverse index after the
room-creation and stale-eviction steps of the `join-room` handler. -/
def joinPrep (st : ServerState) (sid roomId userId : String) :
    RoomData × List (String × List String) :=
  evictStale (getRoom (ensureRoom st.rooms roomId) roomId) st.socketRooms roomId userId sid

/-- The `join-room` handler (lines 36-92).  After room creation and the
stale-user eviction, line 69 tests `!rooms[roomId].socketIds.has(socket.id)`:
if the socket is already a member the handler does nothing further,
otherwise it adds the socket to `socketIds`, sets `userMap[userId]`,
records the room in the socket's reverse-index entry, emits
`user-joined` to the other members and `room-users` (the `userMap` keys
in insertion order) to all members. -/
def joinRoom (st : ServerState) (sid roomId userId : String) :
    ServerState × List Emit :=
  let rooms1 := ensureRoom st.rooms roomId
  let p := joinPrep st sid roomId userId
  if sid ∈ p.1.socketIds then
    ({ rooms := mapSet rooms1 roomId p.1, socketRooms := p.2 }, [])
  else
    let r3 : RoomData := ⟨setAdd p.1.socketIds sid, mapSet p.1.userMap userId sid⟩
    ({ rooms := mapSet rooms1 roomId r3, socketRooms := srAddRoom p.2 sid roomId },
     [Emit.userJoined (setDelete r3.socketIds sid) userId,
      Emit.roomUsers r3.socketIds (r3.userMap.map Prod.fst)])

/-- Recipients of `socket.to(roomId).emit(…)`: the room's members minus
the sending socket (adapter rooms are in lock-step with `socketIds`);
nobody when the room does not exist. -/
def signalRecipients (st : ServerState) (roomId sid : String) : List String :=
  match mapGet st.rooms roomId with
  | some room => setDelete room.socketIds sid
  | none => []

/-- The `signal` handler (lines 95-98): relay the payload, tagged with
the sender-supplied userId, to the rest of the room; state unchanged. -/
def handleSignal (st : ServerState) (sid roomId userId payload : String) :
    ServerState × List Emit :=
  (st, [Emit.signalMsg (signalRecipients st roomId sid) userId payload])

/-- `leaveRoom` (lines 141-186): three silent no-op guards (room
missing, user missing, stored socket differs), then removal from
`userMap`, `socketIds` and the reverse-index entry, a `user-left`
broadcast to the remaining members, and either deletion of the emptied
room or a `room-users` broadcast of the updated roster. -/
def leaveRoom (st : ServerState) (sid roomId userId : String) :
    ServerState × List Emit :=
  match mapGet st.rooms roomId with
  | none => (st, [])
  | some room =>
    match mapGet room.userMap userId with
    | none => (st, [])
    | some stored =>
      if stored = sid then
        let room2 : RoomData := ⟨setDelete room.socketIds sid, mapDelete room.userMap userId⟩
        let sr2 := srDeleteRoom st.socketRooms sid roomId
        if room2.socketIds.isEmpty then
          ({ rooms := mapDelete st.rooms roomId, socketRooms := sr2 },
           [Emit.userLeft room2.socketIds userId])
        else
          ({ rooms := mapSet st.rooms roomId room2, socketRooms := sr2 },
           [Emit.userLeft room2.socketIds userId,
            Emit.roomUsers room2.socketIds (room2.userMap.map Prod.fst)])
      else (st, [])

/-- The `connection` callback (line 33): `socketRooms.set(socket.id, new Set())`. -/
def handleConnection (st : ServerState) (sid : String) : ServerState :=
  { st with socketRooms := mapSet st.socketRooms sid [] }

/-- The `disconnect` handler (lines 106-135): for each room in the
socket's reverse-index entry, scan that room's `userMap` for a binding
whose value is this socket and, when one is found, leave the room —
but only `if (userId)`, a truthiness test that also rejects the empty
string.  Finally delete the socket's reverse-index entry. -/
def handleDisconnect (st : ServerState) (sid : String) : ServerState × List Emit :=
  let userRooms := (mapGet st.socketRooms sid).getD []
  let step := fun (acc : ServerState × List Emit) (roomId : String) =>
    match mapGet acc.1.rooms roomId with
    | none => acc
    | some room =>
      match room.userMap.find? (fun q => q.2 = sid) with
      | none => acc
      | some q =>
        if q.1 ≠ "" then
          let r := leaveRoom acc.1 sid roomId q.1
          (r.1, acc.2 ++ r.2)
        else acc
  let r := userRooms.foldl step (st, [])
  ({ rooms := r.1.rooms, socketRooms := mapDelete r.1.socketRooms sid }, r.2)

/-- One inbound transport event. -/
inductive Event where
  | connect (sid : String)
  | join (sid roomId userId : String)
  | leave (sid roomId userId : String)
  | signal (sid roomId userId payload : String)
  | disconnect (sid : String)

def applyEvent (st : ServerState) : Event → ServerState × List Emit
  | .connect s => (handleConnection st s, [])
  | .join s r u => joinRoom st s r u
  | .leave s r u => leaveRoom st s r u
  | .signal s r u p => handleSignal st s r u p
  | .disconnect s => handleDisconnect st s

/-- The server state after a sequence of inbound events, starting from
the empty initial state. -/
def runEvents (es : List Event) : ServerState :=
  es.foldl (fun st e => (applyEvent st e).1) initialState

/-- The spec's bijection invariant for one room, in decidable form:
every member socket appears exactly once among the `userMap` values,
and every `userMap` value is a member socket. -/
def bijectionInv (r : RoomData) : Prop :=
  (∀ c ∈ r.socketIds, (r.userMap.map Prod.snd).count c = 1) ∧
  (∀ v ∈ r.userMap.map Prod.snd, v ∈ r.socketIds)

/-- The spec's reverse-index consistency invariant, in decidable form:
every room key in a socket's reverse-index entry names an existing room
containing the socket, and every member socket of every room has that
room key in its reverse-index entry. -/
def revIndexConsistent (st : ServerState) : Prop :=
  (∀ q ∈ st.socketRooms, ∀ roomId ∈ q.2,
      mapHas st.rooms roomId = true ∧ q.1 ∈ (getRoom st.rooms roomId).socketIds) ∧
  (∀ q ∈ st.rooms, ∀ sid ∈ q.2.socketIds, q.1 ∈ roomsOf st sid)

instance (r : RoomData) : Decidable (bijectionInv r) := by
  unfold bijectionInv
  infer_instance

instance (st : ServerState) : Decidable (revIndexConsistent st) := by
  unfold revIndexConsistent
  infer_instance

/-- Trace for the bijection-invariant violation: two sockets connect,
`cA` joins `r1` as `alice`, `cB` joins as `bob`, then `cA` also joins
as `bob`. -/
def evictingJoinTrace : List Event :=
  [.connect "cA", .connect "cB",
   .join "cA" "r1" "alice", .join "cB" "r1" "bob", .join "cA" "r1" "bob"]

/-- Trace for the disconnect/empty-user bug: `s1` joins `rA` under the
caller-supplied userId `""` and then disconnects. -/
def emptyUserDisconnectTrace : List Event :=
  [.connect "s1", .join "s1" "rA" "", .disconnect "s1"]

/-- Trace for the reverse-index violation: same shape as
`emptyUserDisconnectTrace` with different identifiers. -/
def emptyUserRevIndexTrace : List Event :=
  [.connect "sX", .join "sX" "rB" "", .disconnect "sX"]

/-- Trace preceding an evicting join with a bystander in the room:
`cD` joins `r2` as `ann`, `cE` joins as `ben`; the evicting join is
then `joinRoom … "cF" "r2" "ann"`. -/
def evictionBroadcastTrace : List Event :=
  [.connect "cD", .connect "cE", .connect "cF",
   .join "cD" "r2" "ann", .join "cE" "r2" "ben"]

/-- Claim C1 (code bug).  The bijection invariant fails on a reachable
state: after `evictingJoinTrace`, room `r1` has `members = ["cA"]` but
`userMap = [(alice, cA), (bob, cB)]`.  The third join evicted `cB` from
`socketIds` (line 52) without removing the stale `bob ↦ cB` binding,
and the overwrite `userMap.set(userId, socket.id)` (line 73) was
skipped because `cA` was already a member (line 69). -/
theorem bijection_violated_by_evicting_join :
    ¬ bijectionInv (getRoom (runEvents evictingJoinTrace).rooms "r1") ∧
    "cB" ∈ (getRoom (runEvents evictingJoinTrace).rooms "r1").userMap.map Prod.snd ∧
    "cB" ∉ (getRoom (runEvents evictingJoinTrace).rooms "r1").socketIds := by
  decide

/-- Claim C2 (code bug).  Reverse-index consistency fails on a
reachable state: after `emptyUserRevIndexTrace`, room `rB` still
contains `sX` in `members`, but `sX`'s reverse-index entry is gone —
the disconnect handler resolved userId `""` for `sX` and the truthiness
test `if (userId)` (line 128) skipped the leave, after which line 134
deleted the reverse-index entry anyway. -/
theorem reverse_index_violated_by_empty_user_disconnect :
    ¬ revIndexConsistent (runEvents emptyUserRevIndexTrace) ∧
    "sX" ∈ (getRoom (runEvents emptyUserRevIndexTrace).rooms "rB").socketIds ∧
    roomsOf (runEvents emptyUserRevIndexTrace) "sX" = [] := by
  decide

/-- Claim C6 (code bug).  Disconnect does not clean a room in which the
connection is bound to the caller-supplied userId `""`: after
`emptyUserDisconnectTrace`, `s1` is still a member of `rA` with its
`userMap` binding intact, while its reverse-index entry was deleted. -/
theorem disconnect_skips_empty_user :
    "s1" ∈ (getRoom (runEvents emptyUserDisconnectTrace).rooms "rA").socketIds ∧
    mapGet (getRoom (runEvents emptyUserDisconnectTrace).rooms "rA").userMap "" = some "s1" ∧
    mapGet (runEvents emptyUserDisconnectTrace).socketRooms "s1" = none := by
  decide

/-- Claim C9 (counterexample).  A join that evicts a stale connection
does not make the `room-users` roster update its only broadcast: with a
bystander `cE` in the room, the evicting join `joinRoom … cF r2 ann`
also emits the add-path `user-joined` broadcast to `cE` (line 80). -/
theorem evict_join_emits_user_joined :
    (joinRoom (runEvents evictionBroadcastTrace) "cF" "r2" "ann").2 =
      [Emit.userJoined ["cE"] "ann", Emit.roomUsers ["cE", "cF"] ["ann", "ben"]] ∧
    ¬ (∀ e ∈ (joinRoom (runEvents evictionBroadcastTrace) "cF" "r2" "ann").2,
        e.isRoomUsers = true) := by
  decide

/-! ### Association-list and set lemmas -/

theorem mapGet_mapSet_self {α : Type} (m : List (String × α)) (k : String) (v : α) :
    mapGet (mapSet m k v) k = some v := by
  induction m with
  | nil => simp [mapSet, mapGet]
  | cons hd tl ih =>
    obtain ⟨a, b⟩ := hd
    by_cases h : a = k
    · subst h
      simp [mapSet, mapGet]
    · simp [mapSet, mapGet, h, ih]

theorem mapGet_mapSet_ne {α : Type} (m : List (String × α)) (k k' : String) (v : α)
    (h : k ≠ k') : mapGet (mapSet m k v) k' = mapGet m k' := by
  induction m with
  | nil => simp [mapSet, mapGet, h]
  | cons hd tl ih =>
    obtain ⟨a, b⟩ := hd
    by_cases ha : a = k
    · subst ha
      simp [mapSet, mapGet, h]
    · by_cases hb : a = k'
      · subst hb
        simp [mapSet, mapGet, ha]
      · simp [mapSet, mapGet, ha, hb, ih]

theorem mapSet_eq_of_mapGet {α : Type} (m : List (String × α)) (k : String) (v : α)
    (h : mapGet m k = some v) : mapSet m k v = m := by
  induction m with
  | nil => simp [mapGet] at h
  | cons hd tl ih =>
    obtain ⟨a, b⟩ := hd
    by_cases ha : a = k
    · subst ha
      simp [mapGet] at h
      simp [mapSet, h]
    · simp [mapGet, ha] at h
      simp [mapSet, ha, ih h]

theorem mem_setAdd_self (l : List String) (x : String) : x ∈ setAdd l x := by
  unfold setAdd
  split
  · assumption
  · simp

theorem mem_setAdd_iff (l : List String) (x y : String) :
    y ∈ setAdd l x ↔ y ∈ l ∨ y = x := by
  unfold setAdd
  split
  · rename_i hx
    constructor
    · exact fun hy => Or.inl hy
    · rintro (hy | rfl)
      · exact hy
      · exact hx
  · simp

theorem not_mem_setDelete_self (l : List String) (x : String) : x ∉ setDelete l x := by
  simp [setDelete]

theorem mem_setDelete_iff (l : List String) (x y : String) :
    y ∈ setDelete l x ↔ y ∈ l ∧ y ≠ x := by
  simp [setDelete]

theorem map_fst_mapSet {α : Type} (m : List (String × α)) (k : String) (v : α) :
    (mapSet m k v).map Prod.fst =
      if (mapGet m k).isSome then m.map Prod.fst else m.map Prod.fst ++ [k] := by
  induction m with
  | nil => simp [mapSet, mapGet]
  | cons hd tl ih =>
    obtain ⟨a, b⟩ := hd
    by_cases ha : a = k
    · subst ha
      simp [mapSet, mapGet]
    · by_cases htl : (mapGet tl k).isSome <;>
        simp [mapSet, mapGet, ha, ih, htl]

theorem map_fst_mapDelete {α : Type} (m : List (String × α)) (k : String) :
    (mapDelete m k).map Prod.fst = (m.map Prod.fst).filter (· ≠ k) := by
  induction m with
  | nil => simp [mapDelete]
  | cons hd tl ih =>
    obtain ⟨a, b⟩ := hd
    by_cases ha : a = k <;> simp [mapDelete, ha, ih] <;> simp [mapDelete] at ih <;> exact ih

/-! ### Reverse-index helper lemmas -/

theorem mapGet_srDeleteRoom_self (sr : List (String × List String)) (sid roomId : String) :
    roomId ∉ (mapGet (srDeleteRoom sr sid roomId) sid).getD [] := by
  unfold srDeleteRoom
  cases h : mapGet sr sid with
  | none => simp [h]
  | some rs => simp [mapGet_mapSet_self, not_mem_setDelete_self]

theorem mapGet_srDeleteRoom_ne (sr : List (String × List String)) (sid roomId x : String)
    (h : x ≠ sid) : mapGet (srDeleteRoom sr sid roomId) x = mapGet sr x := by
  unfold srDeleteRoom
  cases hs : mapGet sr sid with
  | none => rfl
  | some rs => exact mapGet_mapSet_ne _ _ _ _ (Ne.symm h)

theorem mapGet_srAddRoom_ne (sr : List (String × List String)) (sid roomId x : String)
    (h : x ≠ sid) : mapGet (srAddRoom sr sid roomId) x = mapGet sr x := by
  unfold srAddRoom
  cases hs : mapGet sr sid with
  | none => rfl
  | some rs => exact mapGet_mapSet_ne _ _ _ _ (Ne.symm h)

theorem mem_srAddRoom_self (sr : List (String × List String)) (sid roomId : String)
    (h : (mapGet sr sid).isSome = true) :
    roomId ∈ (mapGet (srAddRoom sr sid roomId) sid).getD [] := by
  obtain ⟨rs, hrs⟩ := Option.isSome_iff_exists.mp h
  unfold srAddRoom
  rw [hrs]
  simp [mapGet_mapSet_self, mem_setAdd_self]

/-! ### `ensureRoom`, `evictStale` and `joinPrep` lemmas -/

theorem ensureRoom_of_has (rooms : List (String × RoomData)) (roomId : String)
    (h : mapHas rooms roomId = true) : ensureRoom rooms roomId = rooms := by
  unfold ensureRoom
  rw [if_pos h]

theorem getRoom_ensureRoom (rooms : List (String × RoomData)) (roomId : String) :
    getRoom (ensureRoom rooms roomId) roomId = getRoom rooms roomId := by
  cases hg : mapGet rooms roomId with
  | none => simp [ensureRoom, mapHas, hg, getRoom, mapGet_mapSet_self]
  | some r => simp [ensureRoom, mapHas, hg]

theorem getRoom_mapSet_self (rooms : List (String × RoomData)) (roomId : String)
    (r : RoomData) : getRoom (mapSet rooms roomId r) roomId = r := by
  unfold getRoom
  rw [mapGet_mapSet_self]
  rfl

theorem evictStale_noEvict (room : RoomData) (sr : List (String × List String))
    (roomId userId sid e : String) (hget : mapGet room.userMap userId = some e)
    (hc : ¬(e ≠ "" ∧ e ≠ sid ∧ e ∈ room.socketIds)) :
    evictStale room sr roomId userId sid = (room, sr) := by
  simp only [evictStale, hget]
  rw [if_neg hc]

theorem evictStale_none (room : RoomData) (sr : List (String × List String))
    (roomId userId sid : String) (hget : mapGet room.userMap userId = none) :
    evictStale room sr roomId userId sid = (room, sr) := by
  simp only [evictStale, hget]

theorem evictStale_evict (room : RoomData) (sr : List (String × List String))
    (roomId userId sid e : String) (hget : mapGet room.userMap userId = some e)
    (h1 : e ≠ "") (h2 : e ≠ sid) (h3 : e ∈ room.socketIds) :
    evictStale room sr roomId userId sid =
      ({ room with socketIds := setDelete room.socketIds e }, srDeleteRoom sr e roomId) := by
  simp only [evictStale, hget]
  rw [if_pos ⟨h1, h2, h3⟩]

theorem evictStale_userMap (room : RoomData) (sr : List (String × List String))
    (roomId userId sid : String) :
    (evictStale room sr roomId userId sid).1.userMap = room.userMap := by
  cases hg : mapGet room.userMap userId with
  | none => rw [evictStale_none room sr roomId userId sid hg]
  | some e =>
    by_cases hc : e ≠ "" ∧ e ≠ sid ∧ e ∈ room.socketIds
    · rw [evictStale_evict room sr roomId userId sid e hg hc.1 hc.2.1 hc.2.2]
    · rw [evictStale_noEvict room sr roomId userId sid e hg hc]

theorem mem_evictStale_ids (room : RoomData) (sr : List (String × List String))
    (roomId userId sid x : String)
    (h : x ∈ (evictStale room sr roomId userId sid).1.socketIds) :
    x ∈ room.socketIds := by
  cases hg : mapGet room.userMap userId with
  | none =>
    rw [evictStale_none room sr roomId userId sid hg] at h
    exact h
  | some e =>
    by_cases hc : e ≠ "" ∧ e ≠ sid ∧ e ∈ room.socketIds
    · rw [evictStale_evict room sr roomId userId sid e hg hc.1 hc.2.1 hc.2.2] at h
      exact ((mem_setDelete_iff _ _ _).mp h).1
    · rw [evictStale_noEvict room sr roomId userId sid e hg hc] at h
      exact h

theorem sid_mem_evictStale (room : RoomData) (sr : List (String × List String))
    (roomId userId sid : String) :
    sid ∈ (evictStale room sr roomId userId sid).1.socketIds ↔ sid ∈ room.socketIds := by
  cases hg : mapGet room.userMap userId with
  | none => rw [evictStale_none room sr roomId userId sid hg]
  | some e =>
    by_cases hc : e ≠ "" ∧ e ≠ sid ∧ e ∈ room.socketIds
    · rw [evictStale_evict room sr roomId userId sid e hg hc.1 hc.2.1 hc.2.2]
      simp only [mem_setDelete_iff]
      exact ⟨fun h => h.1, fun h => ⟨h, Ne.symm hc.2.1⟩⟩
    · rw [evictStale_noEvict room sr roomId userId sid e hg hc]

theorem evictStale_sr_get_sid (room : RoomData) (sr : List (String × List String))
    (roomId userId sid : String) :
    mapGet (evictStale room sr roomId userId sid).2 sid = mapGet sr sid := by
  cases hg : mapGet room.userMap userId with
  | none => rw [evictStale_none room sr roomId userId sid hg]
  | some e =>
    by_cases hc : e ≠ "" ∧ e ≠ sid ∧ e ∈ room.socketIds
    · rw [evictStale_evict room sr roomId userId sid e hg hc.1 hc.2.1 hc.2.2]
      exact mapGet_srDeleteRoom_ne _ _ _ _ (Ne.symm hc.2.1)
    · rw [evictStale_noEvict room sr roomId userId sid e hg hc]

theorem evictStale_of_get_self (room : RoomData) (sr : List (String × List String))
    (roomId userId sid : String) (h : mapGet room.userMap userId = some sid) :
    evictStale room sr roomId userId sid = (room, sr) := by
  refine evictStale_noEvict room sr roomId userId sid sid h ?_
  intro hcontra
  exact hcontra.2.1 rfl

theorem evictStale_evictStale (room : RoomData) (sr sr' : List (String × List String))
    (roomId userId sid : String) :
    evictStale (evictStale room sr roomId userId sid).1 sr' roomId userId sid =
      ((evictStale room sr roomId userId sid).1, sr') := by
  cases hg : mapGet room.userMap userId with
  | none =>
    rw [evictStale_none room sr roomId userId sid hg]
    exact evictStale_none room sr' roomId userId sid hg
  | some e =>
    by_cases hc : e ≠ "" ∧ e ≠ sid ∧ e ∈ room.socketIds
    · rw [evictStale_evict room sr roomId userId sid e hg hc.1 hc.2.1 hc.2.2]
      refine evictStale_noEvict _ sr' roomId userId sid e hg ?_
      intro hcontra
      exact (not_mem_setDelete_self _ _) hcontra.2.2
    · rw [evictStale_noEvict room sr roomId userId sid e hg hc]
      exact evictStale_noEvict room sr' roomId userId sid e hg hc

theorem joinPrep_userMap (st : ServerState) (sid roomId userId : String) :
    (joinPrep st sid roomId userId).1.userMap = (getRoom st.rooms roomId).userMap := by
  unfold joinPrep
  rw [evictStale_userMap, getRoom_ensureRoom]

theorem sid_mem_joinPrep (st : ServerState) (sid roomId userId : String) :
    sid ∈ (joinPrep st sid roomId userId).1.socketIds ↔
      sid ∈ (getRoom st.rooms roomId).socketIds := by
  unfold joinPrep
  rw [sid_mem_evictStale, getRoom_ensureRoom]

theorem mem_joinPrep_ids (st : ServerState) (sid roomId userId x : String)
    (h : x ∈ (joinPrep st sid roomId userId).1.socketIds) :
    x ∈ (getRoom st.rooms roomId).socketIds := by
  unfold joinPrep at h
  rw [← getRoom_ensureRoom st.rooms roomId]
  exact mem_evictStale_ids _ _ _ _ _ _ h

theorem joinPrep_sr_get_sid (st : ServerState) (sid roomId userId : String) :
    mapGet (joinPrep st sid roomId userId).2 sid = mapGet st.socketRooms sid := by
  unfold joinPrep
  rw [evictStale_sr_get_sid]

/-! ### Branch equations for `joinRoom` -/

theorem joinRoom_of_mem (st : ServerState) (sid roomId userId : String)
    (h : sid ∈ (joinPrep st sid roomId userId).1.socketIds) :
    joinRoom st sid roomId userId =
      ({ rooms := mapSet (ensureRoom st.rooms roomId) roomId (joinPrep st sid roomId userId).1,
         socketRooms := (joinPrep st sid roomId userId).2 }, []) := by
  simp only [joinRoom]
  rw [if_pos h]

theorem joinRoom_of_not_mem (st : ServerState) (sid roomId userId : String)
    (h : sid ∉ (joinPrep st sid roomId userId).1.socketIds) :
    joinRoom st sid roomId userId =
      ({ rooms := mapSet (ensureRoom st.rooms roomId) roomId
           ⟨setAdd (joinPrep st sid roomId userId).1.socketIds sid,
            mapSet (joinPrep st sid roomId userId).1.userMap userId sid⟩,
         socketRooms := srAddRoom (joinPrep st sid roomId userId).2 sid roomId },
       [Emit.userJoined
          (setDelete (setAdd (joinPrep st sid roomId userId).1.socketIds sid) sid) userId,
        Emit.roomUsers (setAdd (joinPrep st sid roomId userId).1.socketIds sid)
          ((mapSet (joinPrep st sid roomId userId).1.userMap userId sid).map Prod.fst)]) := by
  simp only [joinRoom]
  rw [if_neg h]

/-- The room stored under `roomId` after any `joinRoom` is the first
component of the pair the handler wrote back. -/
theorem joinRoom_rooms_get (st : ServerState) (sid roomId userId : String) :
    (mapGet (joinRoom st sid roomId userId).1.rooms roomId).isSome = true := by
  by_cases h : sid ∈ (joinPrep st sid roomId userId).1.socketIds
  · rw [joinRoom_of_mem st sid roomId userId h]
    simp [mapGet_mapSet_self]
  · rw [joinRoom_of_not_mem st sid roomId userId h]
    simp [mapGet_mapSet_self]

/-- After the no-op branch of a join, re-running the room-creation and
eviction steps changes nothing. -/
theorem joinPrep_after_mem (st : ServerState) (sid roomId userId : String)
    (h : sid ∈ (joinPrep st sid roomId userId).1.socketIds) :
    joinPrep (joinRoom st sid roomId userId).1 sid roomId userId =
      joinPrep st sid roomId userId := by
  rw [joinRoom_of_mem st sid roomId userId h]
  simp only [joinPrep]
  rw [ensureRoom_of_has, getRoom_mapSet_self]
  · exact evictStale_evictStale _ _ _ _ _ _
  · unfold mapHas
    rw [mapGet_mapSet_self]
    rfl

/-- After the add branch of a join, re-running the room-creation and
eviction steps finds the just-written room (whose `userMap` now binds
`userId` to this very socket, so no eviction fires). -/
theorem joinPrep_after_not_mem (st : ServerState) (sid roomId userId : String)
    (h : sid ∉ (joinPrep st sid roomId userId).1.socketIds) :
    joinPrep (joinRoom st sid roomId userId).1 sid roomId userId =
      (⟨setAdd (joinPrep st sid roomId userId).1.socketIds sid,
        mapSet (joinPrep st sid roomId userId).1.userMap userId sid⟩,
       srAddRoom (joinPrep st sid roomId userId).2 sid roomId) := by
  rw [joinRoom_of_not_mem st sid roomId userId h]
  simp only [joinPrep]
  rw [ensureRoom_of_has, getRoom_mapSet_self]
  · exact evictStale_of_get_self _ _ _ _ _ (mapGet_mapSet_self _ _ _)
  · unfold mapHas
    rw [mapGet_mapSet_self]
    rfl

/-- A join from a state that already records exactly the outcome of the
eviction step is a complete no-op. -/
theorem joinRoom_stable (st : ServerState) (sid roomId userId : String)
    (hmem : sid ∈ (joinPrep st sid roomId userId).1.socketIds)
    (hget : mapGet st.rooms roomId = some (joinPrep st sid roomId userId).1)
    (hsr : (joinPrep st sid roomId userId).2 = st.socketRooms) :
    joinRoom st sid roomId userId = (st, []) := by
  rw [joinRoom_of_mem st sid roomId userId hmem]
  have hhas : mapHas st.rooms roomId = true := by
    unfold mapHas
    rw [hget]
    rfl
  rw [ensureRoom_of_has st.rooms roomId hhas, mapSet_eq_of_mapGet st.rooms roomId _ hget, hsr]

/-- Claim C3: `joinRoom` is idempotent — running the same
`(socket, room, user)` join a second time, from any state, leaves the
state exactly as after the first run and emits no broadcast. -/
theorem join_idempotent (st : ServerState) (sid roomId userId : String) :
    joinRoom (joinRoom st sid roomId userId).1 sid roomId userId =
      ((joinRoom st sid roomId userId).1, []) := by
  by_cases h : sid ∈ (joinPrep st sid roomId userId).1.socketIds
  · have hA := joinPrep_after_mem st sid roomId userId h
    refine joinRoom_stable _ sid roomId userId ?_ ?_ ?_
    · rw [hA]
      exact h
    · rw [hA, joinRoom_of_mem st sid roomId userId h]
      exact mapGet_mapSet_self _ _ _
    · rw [hA, joinRoom_of_mem st sid roomId userId h]
  · have hB := joinPrep_after_not_mem st sid roomId userId h
    refine joinRoom_stable _ sid roomId userId ?_ ?_ ?_
    · rw [hB]
      exact mem_setAdd_self _ _
    · rw [hB, joinRoom_of_not_mem st sid roomId userId h]
      exact mapGet_mapSet_self _ _ _
    · rw [hB, joinRoom_of_not_mem st sid roomId userId h]

/-- Claim C5 (counterexample).  The claim's guard is "C is not already
a member of R bound to U in `userIndex`", but the source's line 69
checks only `socketIds` membership: a socket that is already a member
of the room under a different userId takes the no-op branch.  After
`connect c5; join(r5, v) from c5`, the userId `u` is unbound (so the
claim's guard holds), yet `joinRoom … c5 r5 u` emits nothing and never
sets `userIndex[u]`, contradicting the claimed add-path postcondition. -/
theorem join_add_path_counterexample :
    mapGet (getRoom (runEvents [Event.connect "c5", Event.join "c5" "r5" "v"]).rooms
      "r5").userMap "u" = none ∧
    "c5" ∈ (getRoom (runEvents [Event.connect "c5", Event.join "c5" "r5" "v"]).rooms
      "r5").socketIds ∧
    (joinRoom (runEvents [Event.connect "c5", Event.join "c5" "r5" "v"]) "c5" "r5" "u").2
      = [] ∧
    mapGet (getRoom (joinRoom (runEvents [Event.connect "c5", Event.join "c5" "r5" "v"])
      "c5" "r5" "u").1.rooms "r5").userMap "u" = none := by
  decide

/-- Claim C5 (amended): the add path of `joinRoom`, under the guard the
code actually implements.  When the joining socket is not already a
member of the room at all (the source's line 69 check, on the state
after any stale eviction), the join adds it to `socketIds`, binds
`userMap[userId]` to it, records the room in its reverse-index entry
(the socket being connected, i.e. having a reverse-index entry), emits
`user-joined` with payload `userId` to exactly the other members, and
emits `room-users` carrying the `userMap` keys to all members. -/
theorem join_add_path (st : ServerState) (sid roomId userId : String)
    (h1 : sid ∉ (getRoom st.rooms roomId).socketIds)
    (h2 : (mapGet st.socketRooms sid).isSome = true) :
    sid ∈ (getRoom (joinRoom st sid roomId userId).1.rooms roomId).socketIds ∧
    mapGet (getRoom (joinRoom st sid roomId userId).1.rooms roomId).userMap userId =
      some sid ∧
    roomId ∈ roomsOf (joinRoom st sid roomId userId).1 sid ∧
    ∃ others,
      (joinRoom st sid roomId userId).2 =
        [Emit.userJoined others userId,
         Emit.roomUsers (getRoom (joinRoom st sid roomId userId).1.rooms roomId).socketIds
           ((getRoom (joinRoom st sid roomId userId).1.rooms roomId).userMap.map Prod.fst)] ∧
      ∀ x, x ∈ others ↔
        x ∈ (getRoom (joinRoom st sid roomId userId).1.rooms roomId).socketIds ∧ x ≠ sid := by
  have hnm : sid ∉ (joinPrep st sid roomId userId).1.socketIds := fun hmem =>
    h1 ((sid_mem_joinPrep st sid roomId userId).mp hmem)
  rw [joinRoom_of_not_mem st sid roomId userId hnm]
  simp only [getRoom_mapSet_self, roomsOf]
  refine ⟨mem_setAdd_self _ _, mapGet_mapSet_self _ _ _, ?_, ?_⟩
  · exact mem_srAddRoom_self _ _ _ (by rw [joinPrep_sr_get_sid]; exact h2)
  · refine ⟨setDelete (setAdd (joinPrep st sid roomId userId).1.socketIds sid) sid, rfl, ?_⟩
    intro x
    exact mem_setDelete_iff _ _ _

/-- Claim C7: `leaveRoom` is a silent no-op whenever the room does not
exist, the user is not in the room's `userMap`, or the stored socket
for the user is not the caller's socket — the state is unchanged and
nothing is emitted. -/
theorem leave_noop (st : ServerState) (sid roomId userId : String)
    (h : ((mapGet st.rooms roomId).bind fun room => mapGet room.userMap userId) ≠ some sid) :
    leaveRoom st sid roomId userId = (st, []) := by
  cases hr : mapGet st.rooms roomId with
  | none => simp only [leaveRoom, hr]
  | some room =>
    cases hu : mapGet room.userMap userId with
    | none => simp only [leaveRoom, hr, hu]
    | some stored =>
      have hst : ¬stored = sid := by
        intro he
        apply h
        rw [hr]
        show mapGet room.userMap userId = some sid
        rw [hu, he]
      simp only [leaveRoom, hr, hu]
      rw [if_neg hst]

/-- Claim C8: the `signal` handler leaves the state unchanged and emits
exactly one relay carrying the unmodified payload tagged with the
sender-supplied userId; its recipients are precisely the members of the
room other than the sending socket (so nothing reaches the sender, and
nothing is delivered when the room does not exist). -/
theorem signal_relay_exclusive (st : ServerState) (sid roomId userId payload : String) :
    handleSignal st sid roomId userId payload =
      (st, [Emit.signalMsg (signalRecipients st roomId sid) userId payload]) ∧
    sid ∉ signalRecipients st roomId sid ∧
    ∀ x, x ∈ signalRecipients st roomId sid ↔
      ∃ room, mapGet st.rooms roomId = some room ∧ x ∈ room.socketIds ∧ x ≠ sid := by
  refine ⟨rfl, ?_, ?_⟩
  · cases hr : mapGet st.rooms roomId with
    | none => simp [signalRecipients, hr]
    | some room =>
      simp only [signalRecipients, hr]
      exact not_mem_setDelete_self _ _
  · intro x
    cases hr : mapGet st.rooms roomId with
    | none => simp [signalRecipients, hr]
    | some room => simp [signalRecipients, hr, mem_setDelete_iff]

/-- Characterization of a reconnect: `c1` joins a room it (and `c2`)
was not in, then `c2` joins with the same `userId`.  The second join
evicts `c1`, rebinds the user to `c2`, removes the room from `c1`'s
reverse-index entry, and emits the add-path `user-joined` plus one
`room-users` roster update. -/
theorem joinRoom_reconnect_aux (st : ServerState) (roomId userId c1 c2 : String)
    (hne : c1 ≠ c2) (hc1 : c1 ≠ "")
    (h1 : c1 ∉ (getRoom st.rooms roomId).socketIds)
    (h2 : c2 ∉ (getRoom st.rooms roomId).socketIds) :
    ∃ r2 : RoomData,
      (joinRoom (joinRoom st c1 roomId userId).1 c2 roomId userId).1.rooms =
        mapSet (joinRoom st c1 roomId userId).1.rooms roomId r2 ∧
      (joinRoom (joinRoom st c1 roomId userId).1 c2 roomId userId).2 =
        [Emit.userJoined (setDelete r2.socketIds c2) userId,
         Emit.roomUsers r2.socketIds (r2.userMap.map Prod.fst)] ∧
      mapGet r2.userMap userId = some c2 ∧
      c2 ∈ r2.socketIds ∧
      c1 ∉ r2.socketIds ∧
      roomId ∉ roomsOf (joinRoom (joinRoom st c1 roomId userId).1 c2 roomId userId).1 c1 := by
  have hnm1 : c1 ∉ (joinPrep st c1 roomId userId).1.socketIds := fun hm =>
    h1 ((sid_mem_joinPrep st c1 roomId userId).mp hm)
  have hj1 := joinRoom_of_not_mem st c1 roomId userId hnm1
  have hhas1 : mapHas (joinRoom st c1 roomId userId).1.rooms roomId = true := by
    rw [hj1]
    unfold mapHas
    rw [mapGet_mapSet_self]
    rfl
  have hprep2 : joinPrep (joinRoom st c1 roomId userId).1 c2 roomId userId =
      (⟨setDelete (setAdd (joinPrep st c1 roomId userId).1.socketIds c1) c1,
        mapSet (joinPrep st c1 roomId userId).1.userMap userId c1⟩,
       srDeleteRoom (joinRoom st c1 roomId userId).1.socketRooms c1 roomId) := by
    unfold joinPrep
    rw [ensureRoom_of_has _ _ hhas1]
    have hgr : getRoom (joinRoom st c1 roomId userId).1.rooms roomId =
        ⟨setAdd (joinPrep st c1 roomId userId).1.socketIds c1,
         mapSet (joinPrep st c1 roomId userId).1.userMap userId c1⟩ := by
      rw [hj1]
      exact getRoom_mapSet_self _ _ _
    rw [hgr]
    exact evictStale_evict _ _ _ _ _ c1 (mapGet_mapSet_self _ _ _) hc1 hne
      (mem_setAdd_self _ _)
  have hnm2 : c2 ∉ (joinPrep (joinRoom st c1 roomId userId).1 c2 roomId userId).1.socketIds := by
    rw [hprep2]
    intro hm
    obtain ⟨hm1, -⟩ := (mem_setDelete_iff _ _ _).mp hm
    rcases (mem_setAdd_iff _ _ _).mp hm1 with hh | hh
    · exact h2 (mem_joinPrep_ids st c1 roomId userId c2 hh)
    · exact hne hh.symm
  have hj2 := joinRoom_of_not_mem (joinRoom st c1 roomId userId).1 c2 roomId userId hnm2
  refine ⟨⟨setAdd (setDelete (setAdd (joinPrep st c1 roomId userId).1.socketIds c1) c1) c2,
          mapSet (mapSet (joinPrep st c1 roomId userId).1.userMap userId c1) userId c2⟩,
    ?_, ?_, ?_, ?_, ?_, ?_⟩
  · rw [hj2]
    simp only [hprep2]
    rw [ensureRoom_of_has _ _ hhas1]
  · rw [hj2]
    simp only [hprep2]
  · exact mapGet_mapSet_self _ _ _
  · exact mem_setAdd_self _ _
  · intro hm
    rcases (mem_setAdd_iff _ _ _).mp hm with hh | hh
    · exact not_mem_setDelete_self _ _ hh
    · exact hne hh
  · rw [hj2]
    simp only [hprep2, roomsOf]
    rw [mapGet_srAddRoom_ne _ _ _ _ hne]
    exact mapGet_srDeleteRoom_self _ _ _

/-- Claim C4: reconnect eviction.  After `Join(roomId, userId, c1)`
followed by `Join(roomId, userId, c2)` with `c1 ≠ c2` (both previously
outside the room, `c1` a real transport-assigned, hence non-empty,
socket id), the room binds `userId` to `c2`, `c1` is no longer a
member, the room key is gone from `c1`'s reverse-index entry, and the
second join emits exactly one `room-users` broadcast and no
`user-left`. -/
theorem reconnect_eviction (st : ServerState) (roomId userId c1 c2 : String)
    (hne : c1 ≠ c2) (hc1 : c1 ≠ "")
    (h1 : c1 ∉ (getRoom st.rooms roomId).socketIds)
    (h2 : c2 ∉ (getRoom st.rooms roomId).socketIds) :
    mapGet (getRoom (joinRoom (joinRoom st c1 roomId userId).1 c2 roomId userId).1.rooms
      roomId).userMap userId = some c2 ∧
    c2 ∈ (getRoom (joinRoom (joinRoom st c1 roomId userId).1 c2 roomId userId).1.rooms
      roomId).socketIds ∧
    c1 ∉ (getRoom (joinRoom (joinRoom st c1 roomId userId).1 c2 roomId userId).1.rooms
      roomId).socketIds ∧
    roomId ∉ roomsOf (joinRoom (joinRoom st c1 roomId userId).1 c2 roomId userId).1 c1 ∧
    countRoomUsers (joinRoom (joinRoom st c1 roomId userId).1 c2 roomId userId).2 = 1 ∧
    countUserLeft (joinRoom (joinRoom st c1 roomId userId).1 c2 roomId userId).2 = 0 := by
  obtain ⟨r2, hrooms, hemits, hum, hc2m, hc1m, hrev⟩ :=
    joinRoom_reconnect_aux st roomId userId c1 c2 hne hc1 h1 h2
  rw [hrooms, hemits, getRoom_mapSet_self]
  refine ⟨hum, hc2m, hc1m, hrev, ?_, ?_⟩
  · simp [countRoomUsers, Emit.isRoomUsers, List.filter]
  · simp [countUserLeft, Emit.isUserLeft, List.filter]

/-- Claim C9 (amended): a join that evicts a stale connection emits no
`user-left`; besides the final `room-users` roster update it also emits
the standard add-path `user-joined` notification — those two broadcasts
and nothing else. -/
theorem evict_join_broadcasts (st : ServerState) (roomId userId c1 c2 : String)
    (hne : c1 ≠ c2) (hc1 : c1 ≠ "")
    (h1 : c1 ∉ (getRoom st.rooms roomId).socketIds)
    (h2 : c2 ∉ (getRoom st.rooms roomId).socketIds) :
    countUserLeft (joinRoom (joinRoom st c1 roomId userId).1 c2 roomId userId).2 = 0 ∧
    ∃ others all roster,
      (joinRoom (joinRoom st c1 roomId userId).1 c2 roomId userId).2 =
        [Emit.userJoined others userId, Emit.roomUsers all roster] := by
  obtain ⟨r2, hrooms, hemits, hum, hc2m, hc1m, hrev⟩ :=
    joinRoom_reconnect_aux st roomId userId c1 c2 hne hc1 h1 h2
  rw [hemits]
  constructor
  · simp [countUserLeft, Emit.isUserLeft, List.filter]
  · exact ⟨_, _, _, rfl⟩

/-- Claim C10: roster order.  A join broadcasts the `userMap` keys
unchanged when the userId was already present (a reconnect keeps the
user's original position — `Map.set` updates in place) and appends the
userId at the end when it is new; a successful leave broadcasts the
previous keys with the removed user filtered out, preserving the
relative order of everyone else. -/
theorem roster_order_stable (st st2 : ServerState)
    (sid sid2 roomId roomId2 userId userId2 : String) (rm : RoomData)
    (h1 : sid ∉ (getRoom st.rooms roomId).socketIds)
    (h2 : mapGet st2.rooms roomId2 = some rm)
    (h3 : mapGet rm.userMap userId2 = some sid2)
    (h4 : setDelete rm.socketIds sid2 ≠ []) :
    (∃ others all,
      (joinRoom st sid roomId userId).2 =
        [Emit.userJoined others userId,
         Emit.roomUsers all
           (if (mapGet (getRoom st.rooms roomId).userMap userId).isSome
            then (getRoom st.rooms roomId).userMap.map Prod.fst
            else (getRoom st.rooms roomId).userMap.map Prod.fst ++ [userId])]) ∧
    (leaveRoom st2 sid2 roomId2 userId2).2 =
      [Emit.userLeft (setDelete rm.socketIds sid2) userId2,
       Emit.roomUsers (setDelete rm.socketIds sid2)
         ((rm.userMap.map Prod.fst).filter (· ≠ userId2))] := by
  constructor
  · have hnm : sid ∉ (joinPrep st sid roomId userId).1.socketIds := fun hm =>
      h1 ((sid_mem_joinPrep st sid roomId userId).mp hm)
    rw [joinRoom_of_not_mem st sid roomId userId hnm]
    refine ⟨setDelete (setAdd (joinPrep st sid roomId userId).1.socketIds sid) sid,
            setAdd (joinPrep st sid roomId userId).1.socketIds sid, ?_⟩
    rw [map_fst_mapSet, joinPrep_userMap]
  · have hE : (setDelete rm.socketIds sid2).isEmpty = false := by
      cases hcase : setDelete rm.socketIds sid2 with
      | nil => exact absurd hcase h4
      | cons a l => rfl
    simp only [leaveRoom, h2, h3, if_pos rfl, hE, Bool.false_eq_true, if_false]
    rw [map_fst_mapDelete]
    simp only [if_true]

/-! ### Witnesses -/

theorem reconnect_eviction_witness :
    mapGet (getRoom (joinRoom (joinRoom initialState "dA" "r" "u").1 "dB" "r" "u").1.rooms
      "r").userMap "u" = some "dB" ∧
    "dB" ∈ (getRoom (joinRoom (joinRoom initialState "dA" "r" "u").1 "dB" "r" "u").1.rooms
      "r").socketIds ∧
    "dA" ∉ (getRoom (joinRoom (joinRoom initialState "dA" "r" "u").1 "dB" "r" "u").1.rooms
      "r").socketIds ∧
    "r" ∉ roomsOf (joinRoom (joinRoom initialState "dA" "r" "u").1 "dB" "r" "u").1 "dA" ∧
    countRoomUsers (joinRoom (joinRoom initialState "dA" "r" "u").1 "dB" "r" "u").2 = 1 ∧
    countUserLeft (joinRoom (joinRoom initialState "dA" "r" "u").1 "dB" "r" "u").2 = 0 :=
  reconnect_eviction initialState "r" "u" "dA" "dB" (by decide) (by decide) (by decide)
    (by decide)

theorem join_add_path_witness :
    "w1" ∈ (getRoom (joinRoom (runEvents [Event.connect "w1"]) "w1" "rW" "uW").1.rooms
      "rW").socketIds ∧
    mapGet (getRoom (joinRoom (runEvents [Event.connect "w1"]) "w1" "rW" "uW").1.rooms
      "rW").userMap "uW" = some "w1" ∧
    "rW" ∈ roomsOf (joinRoom (runEvents [Event.connect "w1"]) "w1" "rW" "uW").1 "w1" ∧
    ∃ others,
      (joinRoom (runEvents [Event.connect "w1"]) "w1" "rW" "uW").2 =
        [Emit.userJoined others "uW",
         Emit.roomUsers
           (getRoom (joinRoom (runEvents [Event.connect "w1"]) "w1" "rW" "uW").1.rooms
             "rW").socketIds
           ((getRoom (joinRoom (runEvents [Event.connect "w1"]) "w1" "rW" "uW").1.rooms
             "rW").userMap.map Prod.fst)] ∧
      ∀ x, x ∈ others ↔
        x ∈ (getRoom (joinRoom (runEvents [Event.connect "w1"]) "w1" "rW" "uW").1.rooms
          "rW").socketIds ∧ x ≠ "w1" :=
  join_add_path (runEvents [Event.connect "w1"]) "w1" "rW" "uW" (by decide) (by decide)

theorem leave_noop_witness :
    leaveRoom initialState "c1" "r1" "u1" = (initialState, []) :=
  leave_noop initialState "c1" "r1" "u1" (by decide)

theorem evict_join_broadcasts_witness :
    countUserLeft (joinRoom (joinRoom initialState "e1" "r9" "u9").1 "e2" "r9" "u9").2 = 0 ∧
    ∃ others all roster,
      (joinRoom (joinRoom initialState "e1" "r9" "u9").1 "e2" "r9" "u9").2 =
        [Emit.userJoined others "u9", Emit.roomUsers all roster] :=
  evict_join_broadcasts initialState "r9" "u9" "e1" "e2" (by decide) (by decide) (by decide)
    (by decide)

theorem roster_order_stable_witness :
    (∃ others all,
      (joinRoom (runEvents [Event.connect "wA", Event.connect "wB",
          Event.join "wA" "rw" "ua", Event.join "wB" "rw" "ub"]) "wC" "rw" "ua").2 =
        [Emit.userJoined others "ua",
         Emit.roomUsers all
           (if (mapGet (getRoom (runEvents [Event.connect "wA", Event.connect "wB",
                Event.join "wA" "rw" "ua", Event.join "wB" "rw" "ub"]).rooms
                "rw").userMap "ua").isSome
            then (getRoom (runEvents [Event.connect "wA", Event.connect "wB",
                Event.join "wA" "rw" "ua", Event.join "wB" "rw" "ub"]).rooms
                "rw").userMap.map Prod.fst
            else (getRoom (runEvents [Event.connect "wA", Event.connect "wB",
                Event.join "wA" "rw" "ua", Event.join "wB" "rw" "ub"]).rooms
                "rw").userMap.map Prod.fst ++ ["ua"])]) ∧
    (leaveRoom (runEvents [Event.connect "wA", Event.connect "wB",
        Event.join "wA" "rw" "ua", Event.join "wB" "rw" "ub"]) "wA" "rw" "ua").2 =
      [Emit.userLeft (setDelete ["wA", "wB"] "wA") "ua",
       Emit.roomUsers (setDelete ["wA", "wB"] "wA")
         (([("ua", "wA"), ("ub", "wB")].map Prod.fst).filter (· ≠ "ua"))] :=
  roster_order_stable
    (runEvents [Event.connect "wA", Event.connect "wB",
      Event.join "wA" "rw" "ua", Event.join "wB" "rw" "ub"])
    (runEvents [Event.connect "wA", Event.connect "wB",
      Event.join "wA" "rw" "ua", Event.join "wB" "rw" "ub"])
    "wC" "wA" "rw" "rw" "ua" "ua" ⟨["wA", "wB"], [("ua", "wA"), ("ub", "wB")]⟩
    (by decide) (by decide) (by decide) (by decide)

end SocketService
